import Mathlib

/-!
Verification of the display-lifecycle and dma-buf feedback core of the
egl-wayland platform library, shallowly embedded from
`src/wayland-egldisplay.c` and `src/wayland-egldevice.c`.

Modelling conventions:
* C pointers are modelled as `Option Nat` (a `none` is `NULL`); opaque handles
  (`EGLDeviceEXT`, `dev_t`, queue/proxy objects) are `Nat` identifiers, with
  `0` standing for `EGL_NO_DEVICE_EXT`.
* The growable C arrays (`modifiers`, `dmaBufFormats`, `tranches`) are Lean
  lists; the separate `num*` counters of the C structs are the list lengths.
* `realloc`/`calloc` outcomes and the results of external EGL/Wayland calls
  are passed in as explicit boolean oracle parameters, so that both the
  success paths and the allocation/native-failure paths of the C code are
  represented.
* `free`/`munmap` of a collection is modelled by replacing it with the empty
  collection (memory release itself is not observable in a value semantics).
* A C `assert` is modelled as an `Option` guard: the function yields `none`
  exactly when the asserted condition fails.
* Functions that mutate state through pointers are modelled as functions from
  the old state to the new state, returning the C result (`EGLBoolean` as
  `Bool`) alongside it. Where a claim is about how often a native driver
  entry point is invoked, the model additionally returns the number of
  `egl.terminate` invocations made during the call.
-/

namespace EglWayland

/-! ## Format/modifier sets (wayland-egldisplay.c:214-267) -/

/-- One entry of a `WlEglDmaBufFormatSet`: a format code with its modifier
array (`WlEglDmaBufFormat` in wayland-egldisplay.h). -/
structure WlEglDmaBufFormat where
  format : Nat
  modifiers : List Nat
  deriving Repr, DecidableEq

/-- `WlEglDmaBufFormatSet`: the format array; `numFormats` is the length. -/
abbrev WlEglDmaBufFormatSet := List WlEglDmaBufFormat

/-- `wlEglDmaBufFormatAddModifier` (wayland-egldisplay.c:214-238): scan the
modifier array for the value and return unchanged if present; otherwise grow
the array by one (`allocOk` is the `realloc` outcome; on failure the format
is left untouched) and append the modifier at the end. -/
def wlEglDmaBufFormatAddModifier (allocOk : Bool) (fmt : WlEglDmaBufFormat)
    (modifier : Nat) : WlEglDmaBufFormat :=
  if fmt.modifiers.contains modifier then fmt
  else if allocOk then { fmt with modifiers := fmt.modifiers ++ [modifier] }
  else fmt

/-- `wlEglFormatSetAdd` (wayland-egldisplay.c:240-267): linear scan for the
first entry with the given format code; on a hit delegate to
`wlEglDmaBufFormatAddModifier` on that entry. On a miss grow the format array
(`allocFmtOk` is that `realloc` outcome; failure leaves the set untouched),
append a fresh entry `{format, 0, NULL}` at the end and add the modifier to
it (the new entry is committed to the array even if the modifier allocation
inside `wlEglDmaBufFormatAddModifier` fails). -/
def wlEglFormatSetAdd (allocFmtOk allocModOk : Bool) (s : WlEglDmaBufFormatSet)
    (format modifier : Nat) : WlEglDmaBufFormatSet :=
  match s with
  | [] =>
    if allocFmtOk then
      [wlEglDmaBufFormatAddModifier allocModOk ⟨format, []⟩ modifier]
    else []
  | e :: rest =>
    if e.format == format then
      wlEglDmaBufFormatAddModifier allocModOk e modifier :: rest
    else
      e :: wlEglFormatSetAdd allocFmtOk allocModOk rest format modifier

/-- The first entry of the set carrying the given format code. -/
def lookupFormat (s : WlEglDmaBufFormatSet) (f : Nat) :
    Option WlEglDmaBufFormat :=
  s.find? (fun e => e.format == f)

/-- How many entries of the set carry the given format code. -/
def formatEntryCount (s : WlEglDmaBufFormatSet) (f : Nat) : Nat :=
  s.countP (fun e => e.format == f)

/-- The sub-sequence of entries whose format code differs from `f`. -/
def othersOf (s : WlEglDmaBufFormatSet) (f : Nat) : WlEglDmaBufFormatSet :=
  s.filter (fun e => e.format != f)

/-- The set represents the (format, modifier) pair. -/
def setHasPair (s : WlEglDmaBufFormatSet) (f m : Nat) : Prop :=
  ∃ e ∈ s, e.format = f ∧ m ∈ e.modifiers

/-- Structural invariant of a format set: format codes are pairwise distinct
and each modifier array is duplicate-free. -/
def WellFormedSet (s : WlEglDmaBufFormatSet) : Prop :=
  (s.map (fun e => e.format)).Nodup ∧ ∀ e ∈ s, e.modifiers.Nodup

/-! ## Dma-buf feedback state (wayland-egldisplay.c:176-458) -/

/-- One record of the memory-mapped format table
(`WlEglDmaBufFormatTableEntry`); `_Static_assert` pins its size to 16 bytes
(wayland-egldisplay.c:424). -/
structure WlEglDmaBufFormatTableEntry where
  format : Nat
  modifier : Nat
  deriving Repr, DecidableEq

/-- `WlEglDmaBufTranche`: target device, scanout flag and format set. -/
structure WlEglDmaBufTranche where
  drmDev : Nat
  supportsScanout : Bool
  formatSet : WlEglDmaBufFormatSet
  deriving Repr, DecidableEq

/-- The all-zero tranche produced by `calloc`/`memset` in the C code. -/
def emptyTranche : WlEglDmaBufTranche :=
  { drmDev := 0, supportsScanout := false, formatSet := [] }

/-- `WlEglDmaBufFeedback`: the mapped format table (`formatTable.len` is the
list length), the committed tranche array (`numTranches` is the list length),
the in-progress `tmpTranche`, the session main device and the two cycle
flags. The `wlDmaBufFeedback` protocol proxy owned by the struct takes no
part in the event handlers modelled here and is elided. -/
structure WlEglDmaBufFeedback where
  formatTable : List WlEglDmaBufFormatTableEntry
  tranches : List WlEglDmaBufTranche
  tmpTranche : WlEglDmaBufTranche
  mainDev : Nat
  feedbackDone : Bool
  unprocessedFeedback : Bool
  deriving Repr, DecidableEq

/-- The all-zero feedback state produced by `calloc` (including an empty or
unmapped format table). -/
def emptyFeedback : WlEglDmaBufFeedback :=
  { formatTable := [], tranches := [], tmpTranche := emptyTranche,
    mainDev := 0, feedbackDone := false, unprocessedFeedback := false }

/-- `wlEglFeedbackResetTranches` (wayland-egldisplay.c:176-189): a no-op when
no tranche has been committed; otherwise frees the in-progress tranche's
format set, every committed tranche's format set and the tranche array
itself (freed collections are modelled as emptied). -/
def wlEglFeedbackResetTranches (fb : WlEglDmaBufFeedback) :
    WlEglDmaBufFeedback :=
  if fb.tranches.length = 0 then fb
  else
    { fb with
      tranches := []
      tmpTranche := { fb.tmpTranche with formatSet := [] } }

/-- `dmabuf_feedback_check_reset_tranches` (wayland-egldisplay.c:305-313):
on the first event after a completed cycle, clear `feedbackDone` and drop the
committed tranches. -/
def dmabuf_feedback_check_reset_tranches (fb : WlEglDmaBufFeedback) :
    WlEglDmaBufFeedback :=
  if fb.feedbackDone = false then fb
  else wlEglFeedbackResetTranches { fb with feedbackDone := false }

/-- `dmabuf_feedback_main_device` (wayland-egldisplay.c:315-330): lazy cycle
reset, then record the session main device. -/
def dmabuf_feedback_main_device (fb : WlEglDmaBufFeedback) (devid : Nat) :
    WlEglDmaBufFeedback :=
  let fb := dmabuf_feedback_check_reset_tranches fb
  { fb with mainDev := devid }

/-- `dmabuf_feedback_tranche_target_device` (wayland-egldisplay.c:332-344):
lazy cycle reset, then record the working tranche's target device. -/
def dmabuf_feedback_tranche_target_device (fb : WlEglDmaBufFeedback)
    (devid : Nat) : WlEglDmaBufFeedback :=
  let fb := dmabuf_feedback_check_reset_tranches fb
  { fb with tmpTranche := { fb.tmpTranche with drmDev := devid } }

/-- `ZWP_LINUX_DMABUF_FEEDBACK_V1_TRANCHE_FLAGS_SCANOUT` of the protocol. -/
def TRANCHE_FLAGS_SCANOUT : Nat := 1

/-- `dmabuf_feedback_tranche_flags` (wayland-egldisplay.c:346-358): lazy
cycle reset, then mark the working tranche scanout-capable when the scanout
bit is set in the flags. -/
def dmabuf_feedback_tranche_flags (fb : WlEglDmaBufFeedback) (flags : Nat) :
    WlEglDmaBufFeedback :=
  let fb := dmabuf_feedback_check_reset_tranches fb
  if flags &&& TRANCHE_FLAGS_SCANOUT ≠ 0 then
    { fb with tmpTranche := { fb.tmpTranche with supportsScanout := true } }
  else fb

/-- `dmabuf_feedback_tranche_formats` (wayland-egldisplay.c:360-388): lazy
cycle reset, then for every index of the event's array: skip it when it does
not fall inside the mapped format table, otherwise look the entry up and add
its (format, modifier) pair to the working tranche's format set. -/
def dmabuf_feedback_tranche_formats (fb : WlEglDmaBufFeedback)
    (indices : List Nat) : WlEglDmaBufFeedback :=
  let fb := dmabuf_feedback_check_reset_tranches fb
  { fb with
    tmpTranche := { fb.tmpTranche with
      formatSet := indices.foldl (fun fs i =>
        if i < fb.formatTable.length then
          wlEglFormatSetAdd true true fs
            (fb.formatTable.getD i ⟨0, 0⟩).format
            (fb.formatTable.getD i ⟨0, 0⟩).modifier
        else fs) fb.tmpTranche.formatSet } }

/-- `dmabuf_feedback_tranche_done` (wayland-egldisplay.c:390-413): append the
working tranche to the committed array (the `realloc` there is backed by an
`assert` and modelled as succeeding) and reset the working tranche to zero. -/
def dmabuf_feedback_tranche_done (fb : WlEglDmaBufFeedback) :
    WlEglDmaBufFeedback :=
  { fb with
    tranches := fb.tranches ++ [fb.tmpTranche]
    tmpTranche := emptyTranche }

/-- `dmabuf_feedback_done` (wayland-egldisplay.c:415-422): mark the cycle
complete and the new data unconsumed. -/
def dmabuf_feedback_done (fb : WlEglDmaBufFeedback) : WlEglDmaBufFeedback :=
  { fb with feedbackDone := true, unprocessedFeedback := true }

/-- `dmabuf_feedback_format_table` (wayland-egldisplay.c:427-448): the C code
asserts `size % sizeof(WlEglDmaBufFormatTableEntry) == 0` (entry size 16)
before computing the table length and mapping the file descriptor; the
assert is modelled as the `none` outcome. The mapped bytes are abstracted as
the entry sequence `content`, so a successful `mmap` installs the first
`size / 16` entries of `content` and a failed one (`MAP_FAILED`) leaves the
table length zero. -/
def dmabuf_feedback_format_table (fb : WlEglDmaBufFeedback)
    (content : Nat → WlEglDmaBufFormatTableEntry) (size : Nat)
    (mapOk : Bool) : Option WlEglDmaBufFeedback :=
  if size % 16 ≠ 0 then none
  else
    some { fb with
      formatTable :=
        if mapOk then (List.range (size / 16)).map content else [] }

/-! ## Device registry (wayland-egldevice.c) -/

/-- `WlEglDeviceDpy`: the per-device connection context. The cached
extension flags and EGL version numbers play no part in the claims and are
elided; `eglDevice` is the owning device handle (`0` is
`EGL_NO_DEVICE_EXT`) and `initCount` the initialization counter. -/
structure WlEglDeviceDpy where
  eglDevice : Nat
  initCount : Nat
  deriving Repr, DecidableEq

/-- `wlGetInternalDisplay` (wayland-egldevice.c:36-129): scan the registry
for an entry with the same device handle and return it unchanged on a hit.
On a miss, build a fresh entry (`createOk` bundles the `calloc`, the native
`getPlatformDisplay`, both `queryDeviceString` calls and both `stat` calls;
on failure the partially built entry is discarded and the registry is left
unchanged) and prepend it to the registry (`wl_list_insert` inserts at the
head). -/
def wlGetInternalDisplay (deviceDpyList : List WlEglDeviceDpy) (device : Nat)
    (createOk : Bool) : Option WlEglDeviceDpy × List WlEglDeviceDpy :=
  match deviceDpyList.find? (fun d => d.eglDevice == device) with
  | some d => (some d, deviceDpyList)
  | none =>
    if createOk then
      let d : WlEglDeviceDpy := { eglDevice := device, initCount := 0 }
      (some d, d :: deviceDpyList)
    else (none, deviceDpyList)

/-- `wlInternalInitialize` (wayland-egldevice.c:156-223): when the counter is
zero, perform the one-time native initialization (`nativeInitOk` is the
`egl.initialize` outcome; failure is returned with the counter untouched)
and cache the extension flags; in every successful case increment the
counter. -/
def wlInternalInitialize (nativeInitOk : Bool) (d : WlEglDeviceDpy) :
    Bool × WlEglDeviceDpy :=
  if d.initCount = 0 then
    if nativeInitOk then (true, { d with initCount := d.initCount + 1 })
    else (false, d)
  else (true, { d with initCount := d.initCount + 1 })

/-- `wlInternalTerminate` (wayland-egldevice.c:225-246): a successful no-op
when the counter is zero; when the counter is exactly one, invoke the native
`egl.terminate` (`nativeTerminateOk` is its outcome; on failure return
`EGL_FALSE` before the decrement); then decrement. The third component
counts the native `egl.terminate` invocations made by the call. -/
def wlInternalTerminate (nativeTerminateOk : Bool) (d : WlEglDeviceDpy) :
    Bool × WlEglDeviceDpy × Nat :=
  if 0 < d.initCount then
    if d.initCount = 1 then
      if nativeTerminateOk then (true, { d with initCount := d.initCount - 1 }, 1)
      else (false, d, 1)
    else (true, { d with initCount := d.initCount - 1 }, 0)
  else (true, d, 0)

/-! ## Display handles (wayland-egldisplay.c:793-853, 1033-1227, 1283-1417) -/

/-- `WlEglDisplay`: the externally visible display handle. Wayland protocol
proxies are modelled as booleans recording whether the binding is live; the
`surfaces` list abstracts `wlEglSurfaceList`; `devDpy` holds the owned
device-registry entry by value (the C struct holds a pointer into the shared
registry). The fields that only feed logging or the sync-capability probe
(`major`/`minor`, capability flags, mutex, `refCount`) are elided. -/
structure WlEglDisplay where
  nativeDpy : Option Nat
  ownNativeDpy : Bool
  useInitRefCount : Bool
  requestedDevice : Nat
  devDpy : WlEglDeviceDpy
  drmFdOpen : Bool
  initCount : Nat
  surfaces : List Nat
  formatSet : WlEglDmaBufFormatSet
  defaultFeedback : WlEglDmaBufFeedback
  wlRegistry : Bool
  wlStreamDpy : Bool
  wlStreamCtl : Bool
  wpPresentation : Bool
  wlDrmSyncobj : Bool
  wlDmaBuf : Bool
  wlEventQueue : Bool
  deriving Repr, DecidableEq

/-- `terminateDisplay` (wayland-egldisplay.c:793-853): a successful no-op at
`initCount == 0`; a plain decrement when `initCount > 1` and the teardown is
not global; otherwise delegate to `wlInternalTerminate` (a failure there is
returned as-is unless the teardown is global), zero the counter, destroy all
surfaces, and, unless this is a global teardown of a foreign connection,
destroy the format set, the feedback state, every bound protocol object and
the private event queue. The third component counts native `egl.terminate`
invocations. -/
def terminateDisplay (globalTeardown nativeTerminateOk : Bool)
    (display : WlEglDisplay) : Bool × WlEglDisplay × Nat :=
  if display.initCount = 0 then (true, display, 0)
  else if 1 < display.initCount ∧ globalTeardown = false then
    (true, { display with initCount := display.initCount - 1 }, 0)
  else
    match wlInternalTerminate nativeTerminateOk display.devDpy with
    | (ok, dev, calls) =>
      if ok = false ∧ globalTeardown = false then
        (false, { display with devDpy := dev }, calls)
      else
        let d1 := { display with devDpy := dev, initCount := 0, surfaces := [] }
        if globalTeardown = false ∨ d1.ownNativeDpy then
          (true,
           { d1 with
             formatSet := []
             defaultFeedback := emptyFeedback
             wlRegistry := false
             wlStreamDpy := false
             wlStreamCtl := false
             wpPresentation := false
             wlDrmSyncobj := false
             wlDmaBuf := false
             wlEventQueue := false }, calls)
        else (true, d1, calls)

/-- Outcomes of the external calls performed by `wlEglInitializeHook`
(wayland-egldisplay.c:1283-1417). `registryRoundtripOk` covers the
`wl_registry_add_listener` return value together with the first
`wl_display_roundtrip_queue`; `hasEglStream`/`hasDmaBuf` state which
presentation globals the registry listener bound during that roundtrip
(`hasDmaBuf` already accounts for the version-3 floor of the binding);
`addListenerOk` is the listener registration on the bound presentation
object (including, for dma-buf version >= 4, the default-feedback listener
registration); `nativeTerminateOk` feeds the `terminateDisplay` failure
path. -/
structure WlEglInitializeEnv where
  nativeInitOk : Bool
  createQueueOk : Bool
  registryRoundtripOk : Bool
  hasEglStream : Bool
  hasDmaBuf : Bool
  addListenerOk : Bool
  roundtrip2Ok : Bool
  nativeTerminateOk : Bool
  deriving Repr, DecidableEq

/-- The failure path of `wlEglInitializeHook` (wayland-egldisplay.c:1409-
1416): route through `terminateDisplay` with `globalTeardown == EGL_FALSE`
and report failure. -/
def wlEglInitializeFail (env : WlEglInitializeEnv) (display : WlEglDisplay) :
    Bool × WlEglDisplay × Nat :=
  match terminateDisplay false env.nativeTerminateOk display with
  | (_, d, calls) => (false, d, calls)

/-- `wlEglInitializeHook` (wayland-egldisplay.c:1283-1417). Fast path: an
already-initialized display returns the cached version, incrementing
`initCount` only when the handle counts nested initializations. Slow path:
delegate to `wlInternalInitialize`; set `initCount` to one speculatively;
create the private event queue and the registry; bind the presentation
globals during the first roundtrip; register the listener on the stream
display or, failing that, the dma-buf object; fail unless a presentation
protocol was bound and every step succeeded, unwinding through
`terminateDisplay`; finally perform the second roundtrip and clear
`unprocessedFeedback`. (The fence-sync and explicit-sync capability probes
touch none of the fields modelled here.) The third component counts native
`egl.terminate` invocations made during the call. -/
def wlEglInitializeHook (env : WlEglInitializeEnv) (display : WlEglDisplay) :
    Bool × WlEglDisplay × Nat :=
  if 0 < display.initCount then
    (true,
     if display.useInitRefCount then
       { display with initCount := display.initCount + 1 }
     else display, 0)
  else
    match wlInternalInitialize env.nativeInitOk display.devDpy with
    | (false, _) => (false, display, 0)
    | (true, dev) =>
      let d1 := { display with devDpy := dev, initCount := 1 }
      if env.createQueueOk = false then wlEglInitializeFail env d1
      else
        let d2 := { d1 with wlEventQueue := true, wlRegistry := true }
        if env.registryRoundtripOk = false then wlEglInitializeFail env d2
        else
          let d3 := { d2 with
            wlStreamDpy := env.hasEglStream
            wlDmaBuf := env.hasDmaBuf }
          if ((d3.wlStreamDpy || d3.wlDmaBuf) && env.addListenerOk) = false then
            wlEglInitializeFail env d3
          else if env.roundtrip2Ok = false then wlEglInitializeFail env d3
          else
            (true,
             { d3 with defaultFeedback :=
                 { d3.defaultFeedback with unprocessedFeedback := false } }, 0)

/-- Outcomes of the external calls performed by the display lookup-or-create
operation `wlEglGetPlatformDisplayExport` (wayland-egldisplay.c:1033-1227).
`connectResult` is the `wl_display_connect(NULL)` outcome used when no
native connection was supplied; `serverProtocolsOk` is
`getServerProtocolsInfo` (it yields a device name); `hasEglStream` and
`hasDmaBuf` are the probed protocol flags; `isServerNV` is
`checkNvidiaDrmDevice`; `primeRenderOffload` is the
`__NV_PRIME_RENDER_OFFLOAD=1` override; `queryDevicesOk` covers both
`queryDevices` calls and the device-list allocation;
`internalDisplayCreateOk` feeds `wlGetInternalDisplay`; `drmNameOk` the
`queryDeviceString(EGL_DRM_DEVICE_FILE_EXT)` call and `drmFdOk` the `open`
of that device file. -/
structure WlEglPlatformEnv where
  connectResult : Option Nat
  serverProtocolsOk : Bool
  hasEglStream : Bool
  hasDmaBuf : Bool
  isServerNV : Bool
  primeRenderOffload : Bool
  queryDevicesOk : Bool
  internalDisplayCreateOk : Bool
  drmNameOk : Bool
  drmFdOk : Bool
  deriving Repr, DecidableEq

/-- The directory-lookup predicate of `wlEglGetPlatformDisplayExport`
(wayland-egldisplay.c:1093-1101): an existing display matches when it wraps
the same native connection (or owns its default connection while none was
supplied) and agrees on the init-refcount flag and the requested device. -/
def matchDisplay (d : WlEglDisplay) (nativeDpy : Option Nat)
    (useInitRefCount : Bool) (requestedDevice : Nat) : Bool :=
  (d.nativeDpy == nativeDpy || (nativeDpy == none && d.ownNativeDpy)) &&
  d.useInitRefCount == useInitRefCount &&
  d.requestedDevice == requestedDevice

/-- The display handle built by the creation path of
`wlEglGetPlatformDisplayExport`: `calloc` zeroes every field, then the
native connection, ownership flag, init-refcount flag, requested device and
resolved device-registry entry are filled in and the device file descriptor
is opened. -/
def createdDisplay (p : Nat) (own useInitRefCount : Bool)
    (requestedDevice : Nat) (dev : WlEglDeviceDpy) : WlEglDisplay :=
  { nativeDpy := some p
    ownNativeDpy := own
    useInitRefCount := useInitRefCount
    requestedDevice := requestedDevice
    devDpy := dev
    drmFdOpen := true
    initCount := 0
    surfaces := []
    formatSet := []
    defaultFeedback := emptyFeedback
    wlRegistry := false
    wlStreamDpy := false
    wlStreamCtl := false
    wpPresentation := false
    wlDrmSyncobj := false
    wlDmaBuf := false
    wlEventQueue := false }

/-- The creation path of `wlEglGetPlatformDisplayExport` after the native
connection `p` has been obtained (`own` records whether this process opened
it): probe the server protocols, apply the NVIDIA-server gate (skipped when
offload is forced or a device was explicitly requested), require a
presentation protocol, enumerate the devices, resolve the device-registry
entry for the local `eglDevice` variable — which the code leaves at
`EGL_NO_DEVICE_EXT`, modelled `0` —, query and open the device file, and
prepend the handle to the directory. -/
def wlEglCreatePlatformDisplay (env : WlEglPlatformEnv)
    (wlEglDisplayList : List WlEglDisplay)
    (deviceDpyList : List WlEglDeviceDpy) (p : Nat) (own : Bool)
    (useInitRefCount : Bool) (requestedDevice : Nat) :
    Option WlEglDisplay × List WlEglDisplay × List WlEglDeviceDpy :=
  if env.serverProtocolsOk = false then
    (none, wlEglDisplayList, deviceDpyList)
  else if env.primeRenderOffload = false ∧ requestedDevice = 0 ∧
      env.isServerNV = false then
    (none, wlEglDisplayList, deviceDpyList)
  else if env.hasEglStream = false ∧ env.hasDmaBuf = false then
    (none, wlEglDisplayList, deviceDpyList)
  else if env.queryDevicesOk = false then
    (none, wlEglDisplayList, deviceDpyList)
  else
    match wlGetInternalDisplay deviceDpyList 0
        env.internalDisplayCreateOk with
    | (none, reg) => (none, wlEglDisplayList, reg)
    | (some dev, reg) =>
      if env.drmNameOk = false then (none, wlEglDisplayList, reg)
      else if env.drmFdOk = false then (none, wlEglDisplayList, reg)
      else
        let d := createdDisplay p own useInitRefCount requestedDevice dev
        (some d, d :: wlEglDisplayList, reg)

/-- `wlEglGetPlatformDisplayExport` (wayland-egldisplay.c:1033-1227), after
attribute parsing: under the process lock, scan `wlEglDisplayList` for a
matching display and return it unchanged on a hit. On a miss, connect a
default native display when none was supplied (owning it; a failed connect
aborts) and continue with `wlEglCreatePlatformDisplay` (`wl_list_insert`
inserts at the head). Returns the resulting handle (`none` for
`EGL_NO_DISPLAY`), the directory and the device registry. -/
def wlEglGetPlatformDisplayExport (env : WlEglPlatformEnv)
    (wlEglDisplayList : List WlEglDisplay)
    (deviceDpyList : List WlEglDeviceDpy) (nativeDpy : Option Nat)
    (useInitRefCount : Bool) (requestedDevice : Nat) :
    Option WlEglDisplay × List WlEglDisplay × List WlEglDeviceDpy :=
  match wlEglDisplayList.find?
      (fun d => matchDisplay d nativeDpy useInitRefCount requestedDevice) with
  | some d => (some d, wlEglDisplayList, deviceDpyList)
  | none =>
    match nativeDpy with
    | some p =>
      wlEglCreatePlatformDisplay env wlEglDisplayList deviceDpyList p false
        useInitRefCount requestedDevice
    | none =>
      match env.connectResult with
      | some p =>
        wlEglCreatePlatformDisplay env wlEglDisplayList deviceDpyList p true
          useInitRefCount requestedDevice
      | none => (none, wlEglDisplayList, deviceDpyList)

/-- Iterated `wlEglInitializeHook`, accumulating the conjunction of the
results and the native `egl.terminate` invocation count. -/
def initTimes (env : WlEglInitializeEnv) :
    Nat → WlEglDisplay → Bool × WlEglDisplay × Nat
  | 0, d => (true, d, 0)
  | n + 1, d =>
    match wlEglInitializeHook env d with
    | (ok, d1, c1) =>
      match initTimes env n d1 with
      | (ok2, d2, c2) => (ok && ok2, d2, c1 + c2)

/-- Iterated non-global `terminateDisplay`, accumulating the conjunction of
the results and the native `egl.terminate` invocation count. -/
def termTimes (nativeTerminateOk : Bool) :
    Nat → WlEglDisplay → Bool × WlEglDisplay × Nat
  | 0, d => (true, d, 0)
  | n + 1, d =>
    match terminateDisplay false nativeTerminateOk d with
    | (ok, d1, c1) =>
      match termTimes nativeTerminateOk n d1 with
      | (ok2, d2, c2) => (ok && ok2, d2, c1 + c2)


/-! ## Auxiliary lemmas on format sets -/

theorem addModifier_eq (a : Bool) (f : WlEglDmaBufFormat) (m : Nat) :
    wlEglDmaBufFormatAddModifier a f m =
      if m ∈ f.modifiers then f
      else if a then { f with modifiers := f.modifiers ++ [m] } else f := by
  unfold wlEglDmaBufFormatAddModifier
  by_cases h : m ∈ f.modifiers <;>
    simp [List.contains, List.elem_eq_mem, h]

theorem addModifier_format (a : Bool) (f : WlEglDmaBufFormat) (m : Nat) :
    (wlEglDmaBufFormatAddModifier a f m).format = f.format := by
  rw [addModifier_eq]
  by_cases h : m ∈ f.modifiers
  · simp [h]
  · cases a <;> simp [h]

theorem addModifier_noalloc (f : WlEglDmaBufFormat) (m : Nat) :
    wlEglDmaBufFormatAddModifier false f m = f := by
  rw [addModifier_eq]
  by_cases h : m ∈ f.modifiers <;> simp [h]

theorem addModifier_mem_iff (f : WlEglDmaBufFormat) (m x : Nat) :
    x ∈ (wlEglDmaBufFormatAddModifier true f m).modifiers ↔
      x ∈ f.modifiers ∨ x = m := by
  rw [addModifier_eq]
  by_cases h : m ∈ f.modifiers
  · simp only [h, if_true]
    constructor
    · exact fun hx => Or.inl hx
    · rintro (hx | rfl)
      · exact hx
      · exact h
  · simp [h, List.mem_append]

theorem addModifier_nodup (f : WlEglDmaBufFormat) (m : Nat)
    (h : f.modifiers.Nodup) :
    (wlEglDmaBufFormatAddModifier true f m).modifiers.Nodup := by
  rw [addModifier_eq]
  by_cases hc : m ∈ f.modifiers
  · simpa [hc] using h
  · simp only [hc, if_false, if_true]
    rw [List.nodup_append]
    exact ⟨h, List.nodup_singleton m, by simpa using hc⟩

theorem addModifier_count (f : WlEglDmaBufFormat) (m : Nat)
    (h : f.modifiers.Nodup) :
    ((wlEglDmaBufFormatAddModifier true f m).modifiers).count m = 1 := by
  rw [addModifier_eq]
  by_cases hc : m ∈ f.modifiers
  · simpa [hc] using List.count_eq_one_of_mem h hc
  · simp [hc, List.count_append, List.count_eq_zero_of_not_mem hc]

theorem addModifier_idem (f : WlEglDmaBufFormat) (m : Nat) :
    wlEglDmaBufFormatAddModifier true (wlEglDmaBufFormatAddModifier true f m) m
      = wlEglDmaBufFormatAddModifier true f m := by
  by_cases hc : m ∈ (wlEglDmaBufFormatAddModifier true f m).modifiers
  · rw [addModifier_eq true (wlEglDmaBufFormatAddModifier true f m) m, if_pos hc]
  · exact absurd ((addModifier_mem_iff f m m).mpr (Or.inr rfl)) hc

theorem formatSetAdd_nil (aF aM : Bool) (f m : Nat) :
    wlEglFormatSetAdd aF aM [] f m =
      if aF then [wlEglDmaBufFormatAddModifier aM ⟨f, []⟩ m] else [] := rfl

theorem formatSetAdd_cons (aF aM : Bool) (e : WlEglDmaBufFormat)
    (rest : WlEglDmaBufFormatSet) (f m : Nat) :
    wlEglFormatSetAdd aF aM (e :: rest) f m =
      if e.format = f then wlEglDmaBufFormatAddModifier aM e m :: rest
      else e :: wlEglFormatSetAdd aF aM rest f m := by
  simp only [wlEglFormatSetAdd]
  by_cases h : e.format = f <;> simp [h]

theorem lookupFormat_nil (f : Nat) : lookupFormat [] f = none := rfl

theorem lookupFormat_cons (e : WlEglDmaBufFormat) (rest : WlEglDmaBufFormatSet)
    (f : Nat) :
    lookupFormat (e :: rest) f =
      if e.format = f then some e else lookupFormat rest f := by
  simp only [lookupFormat, List.find?_cons]
  by_cases h : e.format = f
  · simp [h]
  · have hb : (e.format == f) = false := by simpa using h
    simp [h, hb]

theorem othersOf_nil (f : Nat) : othersOf [] f = [] := rfl

theorem othersOf_cons (e : WlEglDmaBufFormat) (rest : WlEglDmaBufFormatSet)
    (f : Nat) :
    othersOf (e :: rest) f =
      if e.format = f then othersOf rest f else e :: othersOf rest f := by
  simp only [othersOf, List.filter_cons]
  by_cases h : e.format = f <;> simp [h]

theorem formatEntryCount_nil (f : Nat) : formatEntryCount [] f = 0 := rfl

theorem formatEntryCount_cons (e : WlEglDmaBufFormat)
    (rest : WlEglDmaBufFormatSet) (f : Nat) :
    formatEntryCount (e :: rest) f =
      formatEntryCount rest f + (if e.format = f then 1 else 0) := by
  simp only [formatEntryCount, List.countP_cons]
  by_cases h : e.format = f <;> simp [h]

theorem formatSetAdd_idem (s : WlEglDmaBufFormatSet) (f m : Nat) :
    wlEglFormatSetAdd true true (wlEglFormatSetAdd true true s f m) f m
      = wlEglFormatSetAdd true true s f m := by
  induction s with
  | nil =>
    rw [formatSetAdd_nil, if_pos rfl, formatSetAdd_cons,
      if_pos (by rw [addModifier_format]), addModifier_idem]
  | cons e rest ih =>
    rw [formatSetAdd_cons]
    by_cases h : e.format = f
    · rw [if_pos h, formatSetAdd_cons,
        if_pos (by rw [addModifier_format]; exact h), addModifier_idem]
    · rw [if_neg h, formatSetAdd_cons, if_neg h, ih]

theorem formatSetAdd_others (s : WlEglDmaBufFormatSet) (f m : Nat) :
    othersOf (wlEglFormatSetAdd true true s f m) f = othersOf s f := by
  induction s with
  | nil =>
    rw [formatSetAdd_nil, if_pos rfl, othersOf_cons,
      if_pos (by rw [addModifier_format])]
  | cons e rest ih =>
    rw [formatSetAdd_cons]
    by_cases h : e.format = f
    · rw [if_pos h, othersOf_cons, if_pos (by rw [addModifier_format]; exact h),
        othersOf_cons, if_pos h]
    · rw [if_neg h, othersOf_cons, if_neg h, ih, othersOf_cons, if_neg h]

theorem formatSetAdd_lookup (s : WlEglDmaBufFormatSet) (f m : Nat) :
    lookupFormat (wlEglFormatSetAdd true true s f m) f =
      some (wlEglDmaBufFormatAddModifier true
        ((lookupFormat s f).getD ⟨f, []⟩) m) := by
  induction s with
  | nil =>
    rw [formatSetAdd_nil, if_pos rfl, lookupFormat_cons,
      if_pos (by rw [addModifier_format]), lookupFormat_nil]
    rfl
  | cons e rest ih =>
    rw [formatSetAdd_cons]
    by_cases h : e.format = f
    · rw [if_pos h, lookupFormat_cons,
        if_pos (by rw [addModifier_format]; exact h), lookupFormat_cons, if_pos h]
      rfl
    · rw [if_neg h, lookupFormat_cons, if_neg h, ih, lookupFormat_cons, if_neg h]

theorem formatSetAdd_map_format (s : WlEglDmaBufFormatSet) (f m : Nat) :
    (wlEglFormatSetAdd true true s f m).map (fun e => e.format) =
      if (lookupFormat s f).isSome then s.map (fun e => e.format)
      else s.map (fun e => e.format) ++ [f] := by
  induction s with
  | nil =>
    rw [formatSetAdd_nil, if_pos rfl, lookupFormat_nil]
    simp [addModifier_format]
  | cons e rest ih =>
    rw [formatSetAdd_cons, lookupFormat_cons]
    by_cases h : e.format = f
    · rw [if_pos h, if_pos h]
      simp [addModifier_format, h]
    · rw [if_neg h, if_neg h, List.map_cons, ih, List.map_cons]
      by_cases hs : (lookupFormat rest f).isSome <;> simp [hs]

theorem lookupFormat_isSome_iff (s : WlEglDmaBufFormatSet) (f : Nat) :
    (lookupFormat s f).isSome ↔ f ∈ s.map (fun e => e.format) := by
  induction s with
  | nil => simp [lookupFormat_nil]
  | cons e rest ih =>
    rw [lookupFormat_cons, List.map_cons]
    by_cases h : e.format = f
    · simp [h]
    · simp only [if_neg h, List.mem_cons, ih]
      constructor
      · exact fun hx => Or.inr hx
      · rintro (hx | hx)
        · exact absurd hx.symm h
        · exact hx

theorem formatSetAdd_count_one (s : WlEglDmaBufFormatSet) (f m : Nat)
    (h : (s.map (fun e => e.format)).Nodup) :
    formatEntryCount (wlEglFormatSetAdd true true s f m) f = 1 := by
  have hcount : ∀ t : WlEglDmaBufFormatSet,
      formatEntryCount t f = (t.map (fun e => e.format)).count f := by
    intro t
    induction t with
    | nil => rfl
    | cons e rest ih =>
      rw [formatEntryCount_cons, ih, List.map_cons, List.count_cons]
      by_cases he : e.format = f
      · simp [he]
      · have hb : (e.format == f) = false := by simpa using he
        simp [he, hb]
  rw [hcount, formatSetAdd_map_format]
  by_cases hs : (lookupFormat s f).isSome
  · have hf : f ∈ s.map (fun e => e.format) := (lookupFormat_isSome_iff s f).mp hs
    simp only [hs, if_true]
    exact List.count_eq_one_of_mem h hf
  · have hf : f ∉ s.map (fun e => e.format) := by
      intro hmem
      exact hs ((lookupFormat_isSome_iff s f).mpr hmem)
    simp [hs, List.count_append, List.count_eq_zero_of_not_mem hf]

theorem formatSetAdd_map_nodup (s : WlEglDmaBufFormatSet) (f m : Nat)
    (h : (s.map (fun e => e.format)).Nodup) :
    ((wlEglFormatSetAdd true true s f m).map (fun e => e.format)).Nodup := by
  rw [formatSetAdd_map_format]
  by_cases hs : (lookupFormat s f).isSome
  · simpa [hs] using h
  · have hf : f ∉ s.map (fun e => e.format) := by
      intro hmem
      exact hs ((lookupFormat_isSome_iff s f).mpr hmem)
    simp [hs, List.nodup_append, h, hf]

theorem formatSetAdd_modifiers_nodup (s : WlEglDmaBufFormatSet) (f m : Nat)
    (h : ∀ e ∈ s, e.modifiers.Nodup) :
    ∀ e ∈ wlEglFormatSetAdd true true s f m, e.modifiers.Nodup := by
  induction s with
  | nil =>
    rw [formatSetAdd_nil, if_pos rfl]
    intro e he
    rw [List.mem_singleton] at he
    subst he
    exact addModifier_nodup _ _ (List.nodup_nil)
  | cons a rest ih =>
    rw [formatSetAdd_cons]
    by_cases ha : a.format = f
    · rw [if_pos ha]
      intro e he
      rcases List.mem_cons.mp he with rfl | he
      · exact addModifier_nodup _ _ (h a (List.mem_cons_self a rest))
      · exact h e (List.mem_cons_of_mem a he)
    · rw [if_neg ha]
      intro e he
      rcases List.mem_cons.mp he with rfl | he
      · exact h e (List.mem_cons_self e rest)
      · exact ih (fun x hx => h x (List.mem_cons_of_mem a hx)) e he

theorem setHasPair_nil (x y : Nat) : ¬ setHasPair [] x y := by
  simp [setHasPair]

theorem setHasPair_add_iff (s : WlEglDmaBufFormatSet) (f m x y : Nat) :
    setHasPair (wlEglFormatSetAdd true true s f m) x y ↔
      setHasPair s x y ∨ (x = f ∧ y = m) := by
  induction s with
  | nil =>
    rw [formatSetAdd_nil, if_pos rfl]
    simp only [setHasPair, List.mem_singleton, List.not_mem_nil]
    constructor
    · rintro ⟨e, rfl, hfmt, hmem⟩
      rw [addModifier_format] at hfmt
      rw [addModifier_mem_iff] at hmem
      rcases hmem with hmem | rfl
      · simp at hmem
      · exact Or.inr ⟨hfmt.symm, rfl⟩
    · rintro (⟨e, he, _⟩ | ⟨rfl, rfl⟩)
      · simp at he
      · exact ⟨_, rfl, by rw [addModifier_format],
          by rw [addModifier_mem_iff]; exact Or.inr rfl⟩
  | cons e rest ih =>
    rw [formatSetAdd_cons]
    by_cases h : e.format = f
    · rw [if_pos h]
      simp only [setHasPair, List.mem_cons]
      constructor
      · rintro ⟨a, (rfl | ha), hfmt, hmem⟩
        · rw [addModifier_format] at hfmt
          rw [addModifier_mem_iff] at hmem
          rcases hmem with hmem | rfl
          · exact Or.inl ⟨e, Or.inl rfl, hfmt, hmem⟩
          · exact Or.inr ⟨by rw [← hfmt, h], rfl⟩
        · exact Or.inl ⟨a, Or.inr ha, hfmt, hmem⟩
      · rintro (⟨a, (rfl | ha), hfmt, hmem⟩ | ⟨rfl, rfl⟩)
        · exact ⟨_, Or.inl rfl, by rw [addModifier_format]; exact hfmt,
            by rw [addModifier_mem_iff]; exact Or.inl hmem⟩
        · exact ⟨a, Or.inr ha, hfmt, hmem⟩
        · exact ⟨_, Or.inl rfl, by rw [addModifier_format]; exact h,
            by rw [addModifier_mem_iff]; exact Or.inr rfl⟩
    · rw [if_neg h]
      simp only [setHasPair, List.mem_cons] at ih ⊢
      constructor
      · rintro ⟨a, (rfl | ha), hfmt, hmem⟩
        · exact Or.inl ⟨a, Or.inl rfl, hfmt, hmem⟩
        · rcases ih.mp ⟨a, ha, hfmt, hmem⟩ with ⟨b, hb, hfmt2, hmem2⟩ | hxy
          · exact Or.inl ⟨b, Or.inr hb, hfmt2, hmem2⟩
          · exact Or.inr hxy
      · rintro (⟨a, (rfl | ha), hfmt, hmem⟩ | hxy)
        · exact ⟨a, Or.inl rfl, hfmt, hmem⟩
        · rcases ih.mpr (Or.inl ⟨a, ha, hfmt, hmem⟩) with ⟨b, hb, hfmt2, hmem2⟩
          exact ⟨b, Or.inr hb, hfmt2, hmem2⟩
        · rcases ih.mpr (Or.inr hxy) with ⟨b, hb, hfmt2, hmem2⟩
          exact ⟨b, Or.inr hb, hfmt2, hmem2⟩

/-! ## Claim C5 -/

/-- Conclusion of claim C5 for a set `s` and the pairs (F, M), (F, M1),
(F, M2): adding (F, M) twice equals adding it once and leaves exactly one
entry for format F carrying M exactly once; adding (F, M1) then (F, M2)
leaves a single entry for F containing both modifiers, with every entry of a
different format undisturbed. -/
def C5Statement (s : WlEglDmaBufFormatSet) (F M M1 M2 : Nat) : Prop :=
  (wlEglFormatSetAdd true true (wlEglFormatSetAdd true true s F M) F M
      = wlEglFormatSetAdd true true s F M) ∧
  formatEntryCount
      (wlEglFormatSetAdd true true (wlEglFormatSetAdd true true s F M) F M) F
    = 1 ∧
  (∃ e, lookupFormat
      (wlEglFormatSetAdd true true (wlEglFormatSetAdd true true s F M) F M) F
        = some e ∧
    e.modifiers.count M = 1) ∧
  formatEntryCount
      (wlEglFormatSetAdd true true (wlEglFormatSetAdd true true s F M1) F M2) F
    = 1 ∧
  (∃ e, lookupFormat
      (wlEglFormatSetAdd true true (wlEglFormatSetAdd true true s F M1) F M2) F
        = some e ∧
    M1 ∈ e.modifiers ∧ M2 ∈ e.modifiers) ∧
  othersOf
      (wlEglFormatSetAdd true true (wlEglFormatSetAdd true true s F M1) F M2) F
    = othersOf s F

/-- C5: for every well-formed format/modifier set, adding the pair (F, M)
twice leaves exactly one entry for (F, M) (adding an existing pair is a
no-op), and adding (F, M2) after (F, M1) yields a set with a single entry
for format F whose modifier collection contains both M1 and M2, with all
other format entries undisturbed (`wlEglFormatSetAdd`,
wayland-egldisplay.c:240-267, with all allocations succeeding). -/
theorem c5_format_set_add_laws (s : WlEglDmaBufFormatSet) (F M M1 M2 : Nat)
    (hwf : WellFormedSet s) : C5Statement s F M M1 M2 := by
  obtain ⟨hnodup, hmods⟩ := hwf
  have base_nodup : ∀ e,
      ((lookupFormat s F).getD ⟨F, []⟩ = e) → e.modifiers.Nodup := by
    intro e he
    cases hl : lookupFormat s F with
    | none =>
      rw [hl] at he
      simp only [Option.getD] at he
      rw [← he]
      exact List.nodup_nil
    | some a =>
      rw [hl] at he
      simp only [Option.getD] at he
      have ha : a ∈ s := List.mem_of_find?_eq_some hl
      rw [← he]
      exact hmods a ha
  refine ⟨formatSetAdd_idem s F M, ?_, ?_, ?_, ?_, ?_⟩
  · rw [formatSetAdd_idem s F M]
    exact formatSetAdd_count_one s F M hnodup
  · rw [formatSetAdd_idem s F M, formatSetAdd_lookup]
    refine ⟨_, rfl, ?_⟩
    exact addModifier_count _ M (base_nodup _ rfl)
  · exact formatSetAdd_count_one _ F M2 (formatSetAdd_map_nodup s F M1 hnodup)
  · rw [formatSetAdd_lookup, formatSetAdd_lookup]
    refine ⟨_, rfl, ?_, ?_⟩
    · rw [Option.getD_some, addModifier_mem_iff]
      exact Or.inl ((addModifier_mem_iff _ M1 M1).mpr (Or.inr rfl))
    · rw [Option.getD_some, addModifier_mem_iff]
      exact Or.inr rfl
  · rw [formatSetAdd_others, formatSetAdd_others]

/-- Witness for C5 at the concrete well-formed set `[⟨9, [7]⟩]` with F = 1,
M = 2, M1 = 3, M2 = 4. -/
theorem c5_format_set_add_laws_witness :
    WellFormedSet [⟨9, [7]⟩] ∧ C5Statement [⟨9, [7]⟩] 1 2 3 4 :=
  ⟨⟨by decide, by decide⟩,
   c5_format_set_add_laws [⟨9, [7]⟩] 1 2 3 4 ⟨by decide, by decide⟩⟩

/-! ## Claim C9 -/

/-- C9 counterexample: with the format-array growth succeeding but the
modifier allocation failing, adding (1, 2) to the empty set does not leave
the set as it was — a partially initialized entry `⟨1, []⟩` is appended
(wayland-egldisplay.c:253-266: the fresh entry is committed before the
outcome of `wlEglDmaBufFormatAddModifier` is known). -/
theorem c9_add_alloc_failure_counterexample :
    wlEglFormatSetAdd true false [] 1 2 ≠ ([] : WlEglDmaBufFormatSet) := by
  decide

/-- C9 (amended): if the format-array growth fails, or the modifier
allocation fails for a format that already has an entry, the add leaves the
set exactly as it was; if the modifier allocation fails while the
format-array growth succeeded for a format not yet present, the set gains
exactly one trailing entry for that format with an empty modifier
collection; in every such failure case all pre-existing entries are
undisturbed. -/
theorem c9_add_alloc_failure_amended (allocFmtOk allocModOk : Bool)
    (s : WlEglDmaBufFormatSet) (f m : Nat) :
    (lookupFormat s f = none → allocFmtOk = false →
      wlEglFormatSetAdd allocFmtOk allocModOk s f m = s) ∧
    (wlEglFormatSetAdd allocFmtOk false s f m =
      if (lookupFormat s f).isSome then s
      else if allocFmtOk then s ++ [⟨f, []⟩] else s) := by
  constructor
  · intro hl ha
    subst ha
    induction s with
    | nil => rfl
    | cons e rest ih =>
      rw [lookupFormat_cons] at hl
      by_cases h : e.format = f
      · rw [if_pos h] at hl
        exact absurd hl (by simp)
      · rw [if_neg h] at hl
        rw [formatSetAdd_cons, if_neg h, ih hl]
  · induction s with
    | nil =>
      rw [formatSetAdd_nil, lookupFormat_nil]
      by_cases ha : allocFmtOk = true
      · rw [ha, if_pos rfl, addModifier_noalloc]
        simp
      · have ha2 : allocFmtOk = false := by
          cases allocFmtOk
          · rfl
          · exact absurd rfl ha
        rw [ha2]
        simp
    | cons e rest ih =>
      rw [formatSetAdd_cons, lookupFormat_cons]
      by_cases h : e.format = f
      · rw [if_pos h, if_pos h, addModifier_noalloc]
        simp
      · rw [if_neg h, if_neg h, ih]
        by_cases hs : (lookupFormat rest f).isSome
        · simp [hs]
        · by_cases ha : allocFmtOk = true <;> simp [hs, ha]

/-- Witness for C9 (amended): the format-array-growth failure leaves the
empty set empty, and the modifier-allocation failure appends the bare entry. -/
theorem c9_add_alloc_failure_amended_witness :
    wlEglFormatSetAdd false true [] 1 2 = ([] : WlEglDmaBufFormatSet) ∧
    wlEglFormatSetAdd true false [] 1 2 = [⟨1, []⟩] :=
  ⟨(c9_add_alloc_failure_amended false true [] 1 2).1 rfl rfl,
   by
     have h := (c9_add_alloc_failure_amended true false [] 1 2).2
     simpa [lookupFormat_nil] using h⟩

/-! ## Auxiliary lemmas on the feedback state machine -/

theorem check_reset_formatTable (fb : WlEglDmaBufFeedback) :
    (dmabuf_feedback_check_reset_tranches fb).formatTable = fb.formatTable := by
  unfold dmabuf_feedback_check_reset_tranches wlEglFeedbackResetTranches
  split
  · rfl
  · split <;> rfl

theorem check_reset_of_not_done (fb : WlEglDmaBufFeedback)
    (h : fb.feedbackDone = false) :
    dmabuf_feedback_check_reset_tranches fb = fb := by
  unfold dmabuf_feedback_check_reset_tranches
  rw [if_pos h]

theorem foldl_guard_filter {α β : Type} (p : α → Prop) [DecidablePred p]
    (f : β → α → β) :
    ∀ (L : List α) (b : β),
      L.foldl (fun acc a => if p a then f acc a else acc) b =
        (L.filter (fun a => decide (p a))).foldl
          (fun acc a => if p a then f acc a else acc) b := by
  intro L
  induction L with
  | nil => intro b; rfl
  | cons a L ih =>
    intro b
    by_cases h : p a
    · rw [List.foldl_cons, if_pos h, List.filter_cons,
        if_pos (by simpa using h), List.foldl_cons, if_pos h, ih]
    · rw [List.foldl_cons, if_neg h, List.filter_cons,
        if_neg (by simpa using h), ih]

/-! ## Claim C6 -/

/-- C6: for every feedback state and every index list of a
`tranche-formats` event, indices at or beyond the mapped format-table length
are skipped without error and without any effect on the state — processing
the list is identical to processing only its in-range indices, which are
each looked up and added to the working tranche
(`dmabuf_feedback_tranche_formats`, wayland-egldisplay.c:360-388). -/
theorem c6_tranche_formats_skips_out_of_range (fb : WlEglDmaBufFeedback)
    (indices : List Nat) :
    dmabuf_feedback_tranche_formats fb indices =
      dmabuf_feedback_tranche_formats fb
        (indices.filter (fun i => decide (i < fb.formatTable.length))) := by
  unfold dmabuf_feedback_tranche_formats
  dsimp only
  rw [check_reset_formatTable]
  exact congrArg (fun fs =>
    ({ formatTable := fb.formatTable
       tranches := (dmabuf_feedback_check_reset_tranches fb).tranches
       tmpTranche :=
         { drmDev := (dmabuf_feedback_check_reset_tranches fb).tmpTranche.drmDev
           supportsScanout :=
             (dmabuf_feedback_check_reset_tranches fb).tmpTranche.supportsScanout
           formatSet := fs }
       mainDev := (dmabuf_feedback_check_reset_tranches fb).mainDev
       feedbackDone := (dmabuf_feedback_check_reset_tranches fb).feedbackDone
       unprocessedFeedback :=
         (dmabuf_feedback_check_reset_tranches fb).unprocessedFeedback } :
      WlEglDmaBufFeedback))
    (foldl_guard_filter (fun i => i < fb.formatTable.length)
      (fun fs i => wlEglFormatSetAdd true true fs
        (fb.formatTable.getD i ⟨0, 0⟩).format
        (fb.formatTable.getD i ⟨0, 0⟩).modifier)
      indices (dmabuf_feedback_check_reset_tranches fb).tmpTranche.formatSet)

/-! ## Claim C7 -/

/-- C7: a `format-table` event whose byte size is not a multiple of the
fixed 16-byte entry size is rejected before any mapping is attempted, and
conversely any accepted event had a multiple-of-16 byte size, with the
resulting table length exactly `size / 16` on a successful mapping and `0`
on a failed one — the length is never a silent truncation of an odd size
(`dmabuf_feedback_format_table`, wayland-egldisplay.c:427-448). -/
theorem c7_format_table_size_check (fb : WlEglDmaBufFeedback)
    (content : Nat → WlEglDmaBufFormatTableEntry) (size : Nat) (mapOk : Bool) :
    (size % 16 ≠ 0 →
      dmabuf_feedback_format_table fb content size mapOk = none) ∧
    (∀ fb2, dmabuf_feedback_format_table fb content size mapOk = some fb2 →
      size % 16 = 0 ∧
      fb2.formatTable.length = if mapOk then size / 16 else 0) := by
  unfold dmabuf_feedback_format_table
  constructor
  · intro h
    rw [if_pos h]
  · intro fb2 h
    by_cases hz : size % 16 = 0
    · rw [if_neg (by simpa using hz)] at h
      refine ⟨hz, ?_⟩
      cases h
      by_cases hm : mapOk = true
      · simp [hm]
      · have hm2 : mapOk = false := by
          cases mapOk
          · rfl
          · exact absurd rfl hm
        simp [hm2]
    · rw [if_pos hz] at h
      exact absurd h (by simp)

/-- Witness for C7: byte size 24 is rejected, and the accepted byte size 32
yields the table of length 32 / 16 = 2. -/
theorem c7_format_table_size_check_witness :
    dmabuf_feedback_format_table emptyFeedback (fun i => ⟨i, i⟩) 24 true
      = none ∧
    (32 : Nat) % 16 = 0 ∧
    ({ emptyFeedback with formatTable := [⟨0, 0⟩, ⟨1, 1⟩] } :
      WlEglDmaBufFeedback).formatTable.length = 2 :=
  ⟨(c7_format_table_size_check emptyFeedback (fun i => ⟨i, i⟩) 24 true).1
      (by decide),
   ((c7_format_table_size_check emptyFeedback (fun i => ⟨i, i⟩) 32 true).2
      { emptyFeedback with formatTable := [⟨0, 0⟩, ⟨1, 1⟩] } (by decide)).1,
   by
     have h := ((c7_format_table_size_check emptyFeedback (fun i => ⟨i, i⟩)
       32 true).2
       { emptyFeedback with formatTable := [⟨0, 0⟩, ⟨1, 1⟩] } (by decide)).2
     exact h.trans (by decide)⟩

/-! ## Claim C1 -/

/-- An idle feedback state: a mapped format table, no committed tranches, a
zeroed working tranche, no completed cycle. -/
def c1Start (table : List WlEglDmaBufFormatTableEntry) (mainDev0 : Nat)
    (u : Bool) : WlEglDmaBufFeedback :=
  { formatTable := table, tranches := [], tmpTranche := emptyTranche,
    mainDev := mainDev0, feedbackDone := false, unprocessedFeedback := u }

/-- The event sequence of claim C1 delivered to an idle state:
main-device(D), tranche-target-device(D1), tranche-flags(SCANOUT),
tranche-formats([0, 2]), tranche-done, done. -/
def c1Cycle (table : List WlEglDmaBufFormatTableEntry)
    (D D1 mainDev0 : Nat) (u : Bool) : WlEglDmaBufFeedback :=
  dmabuf_feedback_done (dmabuf_feedback_tranche_done
    (dmabuf_feedback_tranche_formats
      (dmabuf_feedback_tranche_flags
        (dmabuf_feedback_tranche_target_device
          (dmabuf_feedback_main_device (c1Start table mainDev0 u) D) D1)
        TRANCHE_FLAGS_SCANOUT) [0, 2]))

theorem c1Cycle_eq (table : List WlEglDmaBufFormatTableEntry)
    (D D1 mainDev0 : Nat) (u : Bool) (h3 : 3 ≤ table.length) :
    c1Cycle table D D1 mainDev0 u =
      { formatTable := table
        tranches := [⟨D1, true,
          wlEglFormatSetAdd true true (wlEglFormatSetAdd true true []
            (table.getD 0 ⟨0, 0⟩).format (table.getD 0 ⟨0, 0⟩).modifier)
            (table.getD 2 ⟨0, 0⟩).format (table.getD 2 ⟨0, 0⟩).modifier⟩]
        tmpTranche := emptyTranche
        mainDev := D
        feedbackDone := true
        unprocessedFeedback := true } := by
  have h0 : 0 < table.length := by omega
  have h2 : 2 < table.length := by omega
  unfold c1Cycle c1Start dmabuf_feedback_done dmabuf_feedback_tranche_done
    dmabuf_feedback_tranche_formats dmabuf_feedback_tranche_flags
    dmabuf_feedback_tranche_target_device dmabuf_feedback_main_device
    dmabuf_feedback_check_reset_tranches
  simp [h0, h2, TRANCHE_FLAGS_SCANOUT, emptyTranche]

/-- Conclusion of claim C1: after the cycle there is exactly one committed
tranche, scanout-capable, bound to target device D1, whose format set holds
exactly the pairs of format-table entries 0 and 2; the session main device
is D and the cycle is complete; and a subsequent main-device(D2) event
clears the committed tranche list (and records D2) before any new data is
added. -/
def C1Statement (table : List WlEglDmaBufFormatTableEntry)
    (D D1 D2 mainDev0 : Nat) (u : Bool) : Prop :=
  (∃ t, (c1Cycle table D D1 mainDev0 u).tranches = [t] ∧
    t.supportsScanout = true ∧ t.drmDev = D1 ∧
    (∀ f m, setHasPair t.formatSet f m ↔
      (f = (table.getD 0 ⟨0, 0⟩).format ∧ m = (table.getD 0 ⟨0, 0⟩).modifier) ∨
      (f = (table.getD 2 ⟨0, 0⟩).format ∧
        m = (table.getD 2 ⟨0, 0⟩).modifier))) ∧
  (c1Cycle table D D1 mainDev0 u).mainDev = D ∧
  (c1Cycle table D D1 mainDev0 u).feedbackDone = true ∧
  (dmabuf_feedback_main_device (c1Cycle table D D1 mainDev0 u) D2).tranches
    = [] ∧
  (dmabuf_feedback_main_device (c1Cycle table D D1 mainDev0 u) D2).tmpTranche
    = emptyTranche ∧
  (dmabuf_feedback_main_device (c1Cycle table D D1 mainDev0 u) D2).mainDev
    = D2

/-- C1: starting from an idle feedback state with a mapped format table of
at least three entries, delivering main-device(D), tranche-target-device(D1),
tranche-flags(SCANOUT), tranche-formats([0, 2]), tranche-done, done leaves
exactly one committed tranche with `supportsScanout` set, target device D1
and exactly the format/modifier pairs of table entries 0 and 2; a subsequent
main-device(D2) event of a new cycle clears the committed tranche list
before recording any new data (wayland-egldisplay.c:176-189, 305-330,
360-422). -/
theorem c1_feedback_cycle (table : List WlEglDmaBufFormatTableEntry)
    (D D1 D2 mainDev0 : Nat) (u : Bool) (h3 : 3 ≤ table.length) :
    C1Statement table D D1 D2 mainDev0 u := by
  unfold C1Statement
  rw [c1Cycle_eq table D D1 mainDev0 u h3]
  refine ⟨⟨_, rfl, rfl, rfl, ?_⟩, rfl, rfl, ?_, ?_, ?_⟩
  · intro f m
    rw [setHasPair_add_iff, setHasPair_add_iff]
    constructor
    · rintro ((hnil | h1) | h2)
      · exact absurd hnil (setHasPair_nil f m)
      · exact Or.inl h1
      · exact Or.inr h2
    · rintro (h1 | h2)
      · exact Or.inl (Or.inr h1)
      · exact Or.inr h2
  · unfold dmabuf_feedback_main_device dmabuf_feedback_check_reset_tranches
      wlEglFeedbackResetTranches
    simp
  · unfold dmabuf_feedback_main_device dmabuf_feedback_check_reset_tranches
      wlEglFeedbackResetTranches
    simp [emptyTranche]
  · unfold dmabuf_feedback_main_device dmabuf_feedback_check_reset_tranches
      wlEglFeedbackResetTranches
    simp

/-- Witness for C1 at the concrete table [⟨1, 10⟩, ⟨2, 20⟩, ⟨3, 30⟩] with
devices D = 5, D1 = 6, D2 = 7. -/
theorem c1_feedback_cycle_witness :
    3 ≤ ([⟨1, 10⟩, ⟨2, 20⟩, ⟨3, 30⟩] :
      List WlEglDmaBufFormatTableEntry).length ∧
    C1Statement [⟨1, 10⟩, ⟨2, 20⟩, ⟨3, 30⟩] 5 6 7 0 false :=
  ⟨by decide, c1_feedback_cycle [⟨1, 10⟩, ⟨2, 20⟩, ⟨3, 30⟩] 5 6 7 0 false
    (by decide)⟩

/-! ## Claim C4 -/

/-- C4: for every device connection, `wlInternalTerminate`
(wayland-egldevice.c:225-246) is a successful no-op at `initCount == 0`;
with `initCount > 1` it just decrements, performing no native teardown; on
the 1-to-0 transition it performs exactly one native teardown; and if that
native teardown fails it reports failure with `initCount` left unchanged
(still 1). -/
theorem c4_wlInternalTerminate_behavior (d : WlEglDeviceDpy) (ok : Bool) :
    (d.initCount = 0 → wlInternalTerminate ok d = (true, d, 0)) ∧
    (1 < d.initCount →
      wlInternalTerminate ok d
        = (true, { d with initCount := d.initCount - 1 }, 0)) ∧
    (d.initCount = 1 → ok = true →
      wlInternalTerminate ok d = (true, { d with initCount := 0 }, 1)) ∧
    (d.initCount = 1 → ok = false →
      wlInternalTerminate ok d = (false, d, 1)) := by
  refine ⟨?_, ?_, ?_, ?_⟩
  · intro h
    unfold wlInternalTerminate
    rw [if_neg (by omega)]
  · intro h
    unfold wlInternalTerminate
    rw [if_pos (by omega), if_neg (by omega)]
  · intro h hok
    subst hok
    unfold wlInternalTerminate
    rw [if_pos (by omega), if_pos h, if_pos rfl, h]
  · intro h hok
    subst hok
    unfold wlInternalTerminate
    rw [if_pos (by omega), if_pos h, if_neg (by simp)]

/-- Witness for C4 at concrete device connections with counters 0, 2 and 1. -/
theorem c4_wlInternalTerminate_behavior_witness :
    wlInternalTerminate true ⟨0, 0⟩ = (true, ⟨0, 0⟩, 0) ∧
    wlInternalTerminate true ⟨0, 2⟩ = (true, ⟨0, 1⟩, 0) ∧
    wlInternalTerminate true ⟨0, 1⟩ = (true, ⟨0, 0⟩, 1) ∧
    wlInternalTerminate false ⟨0, 1⟩ = (false, ⟨0, 1⟩, 1) :=
  ⟨(c4_wlInternalTerminate_behavior ⟨0, 0⟩ true).1 rfl,
   (c4_wlInternalTerminate_behavior ⟨0, 2⟩ true).2.1 (by decide),
   (c4_wlInternalTerminate_behavior ⟨0, 1⟩ true).2.2.1 rfl rfl,
   (c4_wlInternalTerminate_behavior ⟨0, 1⟩ false).2.2.2 rfl rfl⟩

/-! ## Claim C10 -/

/-- C10: for every display handle with `initCount == 1` whose device
connection is at `initCount == 1`, a failing native terminate during a
non-global `terminateDisplay` (wayland-egldisplay.c:793-812) returns
`EGL_FALSE` with the handle entirely unchanged: `initCount` stays 1, no
surface is destroyed, and the format set, feedback state, bound protocol
objects and private event queue are all left intact (the single native
terminate invocation is the one that failed). -/
theorem c10_terminate_failure_atomic (display : WlEglDisplay)
    (h1 : display.initCount = 1) (h2 : display.devDpy.initCount = 1) :
    terminateDisplay false false display = (false, display, 1) := by
  cases display with
  | mk nd own uirc rd dev fd ic surf fs fb r1 r2 r3 r4 r5 r6 r7 =>
    simp only at h1 h2
    subst h1
    unfold terminateDisplay wlInternalTerminate
    simp [h2]

/-- Witness for C10 at a concrete fully-populated display handle. -/
theorem c10_terminate_failure_atomic_witness :
    terminateDisplay false false
      { nativeDpy := some 1, ownNativeDpy := false, useInitRefCount := false,
        requestedDevice := 0, devDpy := ⟨0, 1⟩, drmFdOpen := true,
        initCount := 1, surfaces := [4],
        formatSet := [⟨1, [2]⟩],
        defaultFeedback := emptyFeedback,
        wlRegistry := true, wlStreamDpy := false, wlStreamCtl := false,
        wpPresentation := true, wlDrmSyncobj := false, wlDmaBuf := true,
        wlEventQueue := true }
      = (false,
        { nativeDpy := some 1, ownNativeDpy := false, useInitRefCount := false,
          requestedDevice := 0, devDpy := ⟨0, 1⟩, drmFdOpen := true,
          initCount := 1, surfaces := [4],
          formatSet := [⟨1, [2]⟩],
          defaultFeedback := emptyFeedback,
          wlRegistry := true, wlStreamDpy := false, wlStreamCtl := false,
          wpPresentation := true, wlDrmSyncobj := false, wlDmaBuf := true,
          wlEventQueue := true }, 1) :=
  c10_terminate_failure_atomic _ rfl rfl

/-! ## Auxiliary lemmas on the display lifecycle -/

theorem hook_fast_path (env : WlEglInitializeEnv) (d : WlEglDisplay)
    (h : 0 < d.initCount) (hu : d.useInitRefCount = true) :
    wlEglInitializeHook env d
      = (true, { d with initCount := d.initCount + 1 }, 0) := by
  unfold wlEglInitializeHook
  rw [if_pos h, hu, if_pos rfl]

theorem initTimes_succ (env : WlEglInitializeEnv) (n : Nat)
    (d : WlEglDisplay) :
    initTimes env (n + 1) d =
      match wlEglInitializeHook env d with
      | (ok, d1, c1) =>
        match initTimes env n d1 with
        | (ok2, d2, c2) => (ok && ok2, d2, c1 + c2) := rfl

theorem termTimes_succ (ok : Bool) (n : Nat) (d : WlEglDisplay) :
    termTimes ok (n + 1) d =
      match terminateDisplay false ok d with
      | (r, d1, c1) =>
        match termTimes ok n d1 with
        | (r2, d2, c2) => (r && r2, d2, c1 + c2) := rfl

theorem initTimes_fast_path (env : WlEglInitializeEnv) :
    ∀ (k : Nat) (d : WlEglDisplay), 0 < d.initCount →
      d.useInitRefCount = true →
      initTimes env k d = (true, { d with initCount := d.initCount + k }, 0) := by
  intro k
  induction k with
  | zero =>
    intro d _ _
    rfl
  | succ k ih =>
    intro d h hu
    rw [initTimes_succ, hook_fast_path env d h hu]
    dsimp only
    rw [ih { d with initCount := d.initCount + 1 } (by simp) (by simpa using hu)]
    dsimp only
    simp [Nat.add_assoc, Nat.add_comm 1 k]

theorem terminate_decrement (ok : Bool) (d : WlEglDisplay)
    (h : 1 < d.initCount) :
    terminateDisplay false ok d
      = (true, { d with initCount := d.initCount - 1 }, 0) := by
  unfold terminateDisplay
  rw [if_neg (by omega), if_pos ⟨h, rfl⟩]

theorem terminate_last (d : WlEglDisplay) (h : d.initCount = 1)
    (hd : d.devDpy.initCount = 1) :
    (terminateDisplay false true d).1 = true ∧
    (terminateDisplay false true d).2.1.initCount = 0 ∧
    (terminateDisplay false true d).2.1.devDpy.initCount = 0 ∧
    (terminateDisplay false true d).2.2 = 1 := by
  unfold terminateDisplay wlInternalTerminate
  simp [h, hd]

theorem termTimes_balance :
    ∀ (k : Nat) (d : WlEglDisplay), d.initCount = k + 1 →
      d.devDpy.initCount = 1 →
      (termTimes true (k + 1) d).1 = true ∧
      (termTimes true (k + 1) d).2.1.initCount = 0 ∧
      (termTimes true (k + 1) d).2.1.devDpy.initCount = 0 ∧
      (termTimes true (k + 1) d).2.2 = 1 := by
  intro k
  induction k with
  | zero =>
    intro d h hd
    obtain ⟨hr, hic, hdc, hcalls⟩ := terminate_last d h hd
    rw [termTimes_succ]
    cases hterm : terminateDisplay false true d with
    | mk ok rest =>
      cases rest with
      | mk d1 c1 =>
        rw [hterm] at hr hic hdc hcalls
        simp only at hr hic hdc hcalls
        dsimp only
        simp [termTimes, hr, hic, hdc, hcalls]
  | succ k ih =>
    intro d h hd
    rw [termTimes_succ, terminate_decrement true d (by omega)]
    dsimp only
    have hstep := ih { d with initCount := d.initCount - 1 }
      (by simp [h]) (by simpa using hd)
    cases hrec : termTimes true (k + 1) { d with initCount := d.initCount - 1 }
      with
    | mk ok2 rest2 =>
      cases rest2 with
      | mk d2 c2 =>
        rw [hrec] at hstep
        simp only at hstep
        dsimp only
        simp [hstep.1, hstep.2.1, hstep.2.2.1, hstep.2.2.2]

/-- The external-call outcomes under which `wlEglInitializeHook` succeeds:
native initialization, queue creation, both roundtrips and the listener
registration succeed, and at least one presentation protocol is offered. -/
def GoodInitEnv (env : WlEglInitializeEnv) : Prop :=
  env.nativeInitOk = true ∧ env.createQueueOk = true ∧
  env.registryRoundtripOk = true ∧
  (env.hasEglStream = true ∨ env.hasDmaBuf = true) ∧
  env.addListenerOk = true ∧ env.roundtrip2Ok = true

theorem initialize_success (env : WlEglInitializeEnv) (d : WlEglDisplay)
    (henv : GoodInitEnv env) (h0 : d.initCount = 0)
    (hd : d.devDpy.initCount = 0) :
    (wlEglInitializeHook env d).1 = true ∧
    (wlEglInitializeHook env d).2.1.initCount = 1 ∧
    (wlEglInitializeHook env d).2.1.devDpy.initCount = 1 ∧
    (wlEglInitializeHook env d).2.1.useInitRefCount = d.useInitRefCount ∧
    (wlEglInitializeHook env d).2.2 = 0 := by
  obtain ⟨h1, h2, h3, h4, h5, h6⟩ := henv
  unfold wlEglInitializeHook wlInternalInitialize
  rcases h4 with h4 | h4 <;>
    simp [h0, hd, h1, h2, h3, h4, h5, h6]

/-! ## Claim C3 -/

/-- Conclusion of claim C3: one successful initialization from the
uninitialized state, followed by `n - 1` nested initializations, reaches
`initCount = n`; terminating exactly `n` times (non-global) then succeeds,
returns the handle to `initCount = 0` (and the device connection to
`initCount = 0`), and the whole sequence performs exactly one native
`egl.terminate` invocation. -/
def C3Statement (env : WlEglInitializeEnv) (display : WlEglDisplay)
    (n : Nat) : Prop :=
  (wlEglInitializeHook env display).1 = true ∧
  (initTimes env (n - 1) (wlEglInitializeHook env display).2.1).1 = true ∧
  (initTimes env (n - 1)
    (wlEglInitializeHook env display).2.1).2.1.initCount = n ∧
  (termTimes true n (initTimes env (n - 1)
    (wlEglInitializeHook env display).2.1).2.1).1 = true ∧
  (termTimes true n (initTimes env (n - 1)
    (wlEglInitializeHook env display).2.1).2.1).2.1.initCount = 0 ∧
  (termTimes true n (initTimes env (n - 1)
    (wlEglInitializeHook env display).2.1).2.1).2.1.devDpy.initCount = 0 ∧
  (wlEglInitializeHook env display).2.2
    + (initTimes env (n - 1) (wlEglInitializeHook env display).2.1).2.2
    + (termTimes true n (initTimes env (n - 1)
        (wlEglInitializeHook env display).2.1).2.1).2.2 = 1

/-- C3: for every display handle with nested-initialization counting, a
successful initialize from the uninitialized state followed by `n - 1`
nested initializes sets `initCount` to n, and calling non-global terminate
exactly n times returns the handle to `initCount == 0` while causing exactly
one native terminate call on the underlying (solely owned) device connection
over the whole sequence, regardless of how many nested initialize calls
occurred in between (wayland-egldisplay.c:793-812, 1299-1332;
wayland-egldevice.c:225-246). -/
theorem c3_init_terminate_balance (env : WlEglInitializeEnv)
    (display : WlEglDisplay) (n : Nat) (henv : GoodInitEnv env) (hn : 1 ≤ n)
    (h0 : display.initCount = 0) (hdev : display.devDpy.initCount = 0)
    (hu : display.useInitRefCount = true) : C3Statement env display n := by
  obtain ⟨m, rfl⟩ : ∃ m, n = m + 1 := ⟨n - 1, by omega⟩
  obtain ⟨hr, hic, hdc, huirc, hcalls⟩ :=
    initialize_success env display henv h0 hdev
  unfold C3Statement
  have hm : (m + 1) - 1 = m := by omega
  rw [hm]
  have h1pos : 0 < (wlEglInitializeHook env display).2.1.initCount := by
    omega
  have hfast := initTimes_fast_path env m (wlEglInitializeHook env display).2.1
    h1pos (by rw [huirc, hu])
  rw [hfast]
  dsimp only
  have hbal := termTimes_balance m
    { (wlEglInitializeHook env display).2.1 with
      initCount := (wlEglInitializeHook env display).2.1.initCount + m }
    (by simp [hic, Nat.add_comm]) (by simpa using hdc)
  exact ⟨hr, rfl, by simp [hic, Nat.add_comm], hbal.1, hbal.2.1, hbal.2.2.1,
    by rw [hcalls, hbal.2.2.2]⟩

/-- A fully successful environment for `wlEglInitializeHook` (dma-buf
protocol offered). -/
def c3SampleEnv : WlEglInitializeEnv :=
  { nativeInitOk := true, createQueueOk := true, registryRoundtripOk := true,
    hasEglStream := false, hasDmaBuf := true, addListenerOk := true,
    roundtrip2Ok := true, nativeTerminateOk := true }

/-- A freshly created, uninitialized display handle counting nested
initializations. -/
def c3SampleDisplay : WlEglDisplay := createdDisplay 1 false true 0 ⟨0, 0⟩

/-- Witness for C3 at the concrete environment and display with n = 3. -/
theorem c3_init_terminate_balance_witness :
    GoodInitEnv c3SampleEnv ∧ 1 ≤ 3 ∧ c3SampleDisplay.initCount = 0 ∧
    c3SampleDisplay.devDpy.initCount = 0 ∧
    c3SampleDisplay.useInitRefCount = true ∧
    C3Statement c3SampleEnv c3SampleDisplay 3 :=
  ⟨⟨rfl, rfl, rfl, Or.inr rfl, rfl, rfl⟩, by omega, rfl, rfl, rfl,
   c3_init_terminate_balance c3SampleEnv c3SampleDisplay 3
     ⟨rfl, rfl, rfl, Or.inr rfl, rfl, rfl⟩ (by omega) rfl rfl rfl⟩

/-! ## Claim C2 -/

theorem createPlatformDisplay_success (env : WlEglPlatformEnv)
    (dir : List WlEglDisplay) (reg : List WlEglDeviceDpy) (p : Nat)
    (own useInitRefCount : Bool) (requestedDevice : Nat)
    (d : WlEglDisplay) (dir2 : List WlEglDisplay)
    (reg2 : List WlEglDeviceDpy)
    (h : wlEglCreatePlatformDisplay env dir reg p own useInitRefCount
      requestedDevice = (some d, dir2, reg2)) :
    ∃ dev, d = createdDisplay p own useInitRefCount requestedDevice dev ∧
      dir2 = d :: dir := by
  unfold wlEglCreatePlatformDisplay at h
  split at h
  · exact absurd h (by simp)
  split at h
  · exact absurd h (by simp)
  split at h
  · exact absurd h (by simp)
  split at h
  · exact absurd h (by simp)
  split at h
  · exact absurd h (by simp)
  rename_i dev reg3 heq
  split at h
  · exact absurd h (by simp)
  split at h
  · exact absurd h (by simp)
  simp only [Prod.mk.injEq, Option.some.injEq] at h
  obtain ⟨hd, hdir, hreg⟩ := h
  exact ⟨dev, hd.symm, by rw [← hdir, hd]⟩

theorem matchDisplay_created (p : Nat) (own useInitRefCount : Bool)
    (requestedDevice : Nat) (dev : WlEglDeviceDpy) (nativeDpy : Option Nat)
    (hnd : nativeDpy = some p ∨ (nativeDpy = none ∧ own = true)) :
    matchDisplay (createdDisplay p own useInitRefCount requestedDevice dev)
      nativeDpy useInitRefCount requestedDevice = true := by
  rcases hnd with rfl | ⟨rfl, rfl⟩ <;> simp [matchDisplay, createdDisplay]

/-- C2: for every environment, directory, device registry and argument
triple (native connection, device selector, init-refcount flag), if the
display lookup-or-create operation returns a display handle, then calling it
again with identical arguments on the resulting directory returns the very
same handle and leaves both the directory and the device registry unchanged
— in particular the second call inserts no second entry for that triple
(wayland-egldisplay.c:1092-1101, 1194-1209). -/
theorem c2_get_platform_display_idempotent (env : WlEglPlatformEnv)
    (dir : List WlEglDisplay) (reg : List WlEglDeviceDpy)
    (nativeDpy : Option Nat) (useInitRefCount : Bool)
    (requestedDevice : Nat) (d : WlEglDisplay) (dir2 : List WlEglDisplay)
    (reg2 : List WlEglDeviceDpy)
    (h : wlEglGetPlatformDisplayExport env dir reg nativeDpy useInitRefCount
      requestedDevice = (some d, dir2, reg2)) :
    wlEglGetPlatformDisplayExport env dir2 reg2 nativeDpy useInitRefCount
      requestedDevice = (some d, dir2, reg2) := by
  unfold wlEglGetPlatformDisplayExport at h
  cases hfind : dir.find?
      (fun e => matchDisplay e nativeDpy useInitRefCount requestedDevice) with
  | some d0 =>
    rw [hfind] at h
    simp only [Prod.mk.injEq, Option.some.injEq] at h
    obtain ⟨hd, hdir, hreg⟩ := h
    subst hd
    subst hdir
    subst hreg
    unfold wlEglGetPlatformDisplayExport
    rw [hfind]
  | none =>
    rw [hfind] at h
    cases hnd : nativeDpy with
    | some p =>
      rw [hnd] at h
      dsimp only at h
      obtain ⟨dev, hd, hdir⟩ := createPlatformDisplay_success env dir reg p
        false useInitRefCount requestedDevice d dir2 reg2 h
      subst hdir
      unfold wlEglGetPlatformDisplayExport
      rw [List.find?_cons_of_pos _ (by
        rw [hd]
        exact matchDisplay_created p false useInitRefCount requestedDevice
          dev (some p) (Or.inl rfl))]
    | none =>
      rw [hnd] at h
      dsimp only at h
      cases hc : env.connectResult with
      | none =>
        rw [hc] at h
        exact absurd h (by simp)
      | some q =>
        rw [hc] at h
        dsimp only at h
        obtain ⟨dev, hd, hdir⟩ := createPlatformDisplay_success env dir reg q
          true useInitRefCount requestedDevice d dir2 reg2 h
        subst hdir
        unfold wlEglGetPlatformDisplayExport
        rw [List.find?_cons_of_pos _ (by
          rw [hd]
          exact matchDisplay_created q true useInitRefCount requestedDevice
            dev none (Or.inr ⟨rfl, rfl⟩))]

/-- A fully permissive environment for the display lookup-or-create
operation. -/
def c2SampleEnv : WlEglPlatformEnv :=
  { connectResult := some 99, serverProtocolsOk := true, hasEglStream := true,
    hasDmaBuf := true, isServerNV := true, primeRenderOffload := false,
    queryDevicesOk := true, internalDisplayCreateOk := true,
    drmNameOk := true, drmFdOk := true }

/-- Witness for C2: a first call on the empty directory creates a handle,
and the theorem transports it to the second call. -/
theorem c2_get_platform_display_idempotent_witness :
    wlEglGetPlatformDisplayExport c2SampleEnv
        [createdDisplay 1 false false 0 ⟨0, 0⟩] [⟨0, 0⟩] (some 1) false 0
      = (some (createdDisplay 1 false false 0 ⟨0, 0⟩),
         [createdDisplay 1 false false 0 ⟨0, 0⟩], [⟨0, 0⟩]) :=
  c2_get_platform_display_idempotent c2SampleEnv [] [] (some 1) false 0
    (createdDisplay 1 false false 0 ⟨0, 0⟩)
    [createdDisplay 1 false false 0 ⟨0, 0⟩] [⟨0, 0⟩] (by decide)

/-! ## Claim C8 -/

/-- C8 failing input: the environment in which every external step succeeds,
an empty directory and registry, an explicitly supplied native connection,
and the explicitly requested device 7. The resulting handle's device-registry
entry is for device 0 (`EGL_NO_DEVICE_EXT`) — the local `eglDevice` of
`wlEglGetPlatformDisplayExport` is initialised to `EGL_NO_DEVICE_EXT`
(wayland-egldisplay.c:1045) and never reassigned before the
`wlGetInternalDisplay` call (line 1180) — so the registry entry owned by the
new handle does not correspond to the caller's requested device. -/
theorem c8_selected_device_ignored :
    ∃ d, wlEglGetPlatformDisplayExport c2SampleEnv [] [] (some 1) false 7
        = (some d, [d], [⟨0, 0⟩]) ∧
      d.requestedDevice = 7 ∧ d.drmFdOpen = true ∧
      d.devDpy.eglDevice = 0 ∧ d.devDpy.eglDevice ≠ d.requestedDevice :=
  ⟨createdDisplay 1 false false 7 ⟨0, 0⟩, by decide, rfl, rfl, rfl, by decide⟩

end EglWayland
